import Mathlib

/-
  Verification development for the voip-calls-downloader repository.

  Shallow embedding of the two provider pipelines:
    * src/rostelcom/call_records_watcher.py   (CallRecord, DatabaseManager,
      CallRecordsDownloader)
    * src/rostelcom/cloudpbx_auth.py          (CloudPBXAuth)
    * src/svyaztransit/call_records_watcher.py (CallRecord, DatabaseManager,
      CallRecordsWatcher)
    * src/svyaztransit/stranzit_auth.py        (StranzitAuth)
    * src/svyaztransit/auto_restart.py         (WatcherRestarter)
    * src/rostelcom/multi_account_downloader.py (MultiAccountOrchestrator)

  Python ints are modelled as Nat/Int, fallible operations as Option/Except,
  the SQLite ledger as a list of rows with INSERT OR REPLACE semantics, and
  network effects as explicit environment records.
-/

namespace Rostelcom

/-- Fields of `CallRecord` (call_records_watcher.py, `__init__`) that the
watcher logic reads.  `recordCallId` is `None` exactly when the raw item has
no `record` object; otherwise it is `record['callId']` with the record's own
id as default. -/
structure CallRecord where
  id : String
  dateTime : String
  directionType : String
  callerNumber : String
  hasRecord : Bool
  recordCallId : Option String
  durationSeconds : Nat
deriving Repr, DecidableEq

/-- `CallRecord.is_incoming`: the direction image is `group` or `group_skip`. -/
def CallRecord.isIncoming (r : CallRecord) : Bool :=
  r.directionType = "group" || r.directionType = "group_skip"

/-- `CallRecord.is_answered`: the call has a recording. -/
def CallRecord.isAnswered (r : CallRecord) : Bool :=
  r.hasRecord

/-- Days per month of the proleptic Gregorian calendar, as validated by
Python's `datetime` constructor. -/
def daysInMonth (y m : Nat) : Nat :=
  if m = 2 then
    if y % 4 = 0 && (y % 100 != 0 || y % 400 = 0) then 29 else 28
  else if m = 4 || m = 6 || m = 9 || m = 11 then 30
  else 31

/-- The six fields produced by `datetime.strptime(_, "%Y-%m-%d %H:%M:%S")`. -/
structure DateTimeParts where
  year : Nat
  month : Nat
  day : Nat
  hour : Nat
  minute : Nat
  second : Nat
deriving Repr, DecidableEq

/-- Take at most `n` leading decimal digits of a char list, returning them
together with the unconsumed remainder (the regex fragment `\d\d?` used by
CPython's `_strptime`, and `\d\d\d\d` for `%Y`). -/
def takeDigits : Nat → List Char → List Char × List Char
  | 0, cs => ([], cs)
  | _ + 1, [] => ([], [])
  | n + 1, c :: cs =>
    if c.isDigit then
      let (ds, rest) := takeDigits n cs
      (c :: ds, rest)
    else ([], c :: cs)

/-- Decimal value of a digit list. -/
def digitsToNat (ds : List Char) : Nat :=
  ds.foldl (fun acc c => acc * 10 + (c.toNat - 48)) 0

/-- Parse `%Y-%m-%d %H:%M:%S` the way `datetime.strptime` does: `%Y` is
exactly four digits, the other fields one or two digits, the format's blank
matches one or more whitespace characters, the whole input must be consumed,
and the resulting fields must form a valid `datetime` (year ≥ 1,
1 ≤ month ≤ 12, 1 ≤ day ≤ days-in-month, hour ≤ 23, minute ≤ 59,
second ≤ 59). -/
def strptimeYmdHms (cs : List Char) : Option DateTimeParts :=
  let (yds, r1) := takeDigits 4 cs
  if yds.length != 4 then none else
  match r1 with
  | '-' :: r2 =>
    let (mds, r3) := takeDigits 2 r2
    if mds.isEmpty then none else
    match r3 with
    | '-' :: r4 =>
      let (dds, r5) := takeDigits 2 r4
      if dds.isEmpty then none else
      let ws := r5.takeWhile (fun c => c.isWhitespace)
      let r6 := r5.dropWhile (fun c => c.isWhitespace)
      if ws.isEmpty then none else
      let (hds, r7) := takeDigits 2 r6
      if hds.isEmpty then none else
      match r7 with
      | ':' :: r8 =>
        let (mids, r9) := takeDigits 2 r8
        if mids.isEmpty then none else
        match r9 with
        | ':' :: r10 =>
          let (sds, r11) := takeDigits 2 r10
          if sds.isEmpty then none else
          if !r11.isEmpty then none else
          let y := digitsToNat yds
          let mo := digitsToNat mds
          let d := digitsToNat dds
          let h := digitsToNat hds
          let mi := digitsToNat mids
          let sec := digitsToNat sds
          if 1 ≤ y && 1 ≤ mo && mo ≤ 12 && 1 ≤ d && d ≤ daysInMonth y mo &&
             h ≤ 23 && mi ≤ 59 && sec ≤ 59 then
            some ⟨y, mo, d, h, mi, sec⟩
          else none
        | _ => none
      | _ => none
    | _ => none
  | _ => none

/-- Python `str.strip()` restricted to ASCII whitespace. -/
def pyStrip (cs : List Char) : List Char :=
  ((cs.dropWhile (fun c => c.isWhitespace)).reverse.dropWhile
    (fun c => c.isWhitespace)).reverse

/-- Zero-pad a number to a given width, as `strftime` does for each field. -/
def zeroPad (w n : Nat) : String :=
  let s := toString n
  String.mk (List.replicate (w - s.length) '0') ++ s

/-- `CallRecord.get_readable_filename`: split the timestamp on `+`, strip it,
parse it with `%Y-%m-%d %H:%M:%S`; on success format
`YYYY-MM-DD_HH-MM-SS_{caller stripped of plus and spaces, first 15 chars}_{duration}sec.mp3`;
on any parse failure fall back to `call_{id}.mp3`. -/
def CallRecord.getReadableFilename (r : CallRecord) : String :=
  let dtStr := pyStrip (r.dateTime.toList.takeWhile (fun c => c != '+'))
  match strptimeYmdHms dtStr with
  | some dt =>
    let datePart := zeroPad 4 dt.year ++ "-" ++ zeroPad 2 dt.month ++ "-" ++
      zeroPad 2 dt.day ++ "_" ++ zeroPad 2 dt.hour ++ "-" ++ zeroPad 2 dt.minute ++
      "-" ++ zeroPad 2 dt.second
    let callerClean :=
      String.mk ((r.callerNumber.toList.filter
        (fun c => c != '+' && c != ' ')).take 15)
    datePart ++ "_" ++ callerClean ++ "_" ++ toString r.durationSeconds ++ "sec.mp3"
  | none => "call_" ++ r.id ++ ".mp3"

/-- The tenant policy knobs read by `CallRecordsDownloader.filter_records`. -/
structure FilterConfig where
  minDuration : Nat
  onlyIncoming : Bool
deriving Repr, DecidableEq

/-- `CallRecordsDownloader.filter_records`: drop records without a recording,
then records shorter than `min_duration`, then (when `only_incoming`)
non-incoming records; keep the rest in order. -/
def filterRecords (cfg : FilterConfig) : List CallRecord → List CallRecord
  | [] => []
  | r :: rest =>
    if !r.isAnswered then filterRecords cfg rest
    else if r.durationSeconds < cfg.minDuration then filterRecords cfg rest
    else if cfg.onlyIncoming && !r.isIncoming then filterRecords cfg rest
    else r :: filterRecords cfg rest

/-- One row of the `downloaded_records` SQLite table
(`DatabaseManager.init_db`): primary key `id`, plus the metadata columns
written by `mark_record_downloaded`. -/
structure LedgerRow where
  id : String
  callId : Option String
  caller : String
  durationSeconds : Nat
  dateTime : String
  localPath : String
  fileSize : Nat
  cityName : Option String
  domain : Option String
deriving Repr, DecidableEq

/-- The ledger table as a list of rows (row order is irrelevant to every
query the watcher issues). -/
abbrev Ledger := List LedgerRow

/-- `DatabaseManager.is_record_downloaded`: `SELECT id … WHERE call_id = ?`.
Binding SQL `NULL` as the parameter matches no row. -/
def isRecordDownloaded (db : Ledger) (callId : Option String) : Bool :=
  match callId with
  | none => false
  | some c => db.any (fun row => row.callId == some c)

/-- `DatabaseManager.mark_record_downloaded`: `INSERT OR REPLACE` keyed on the
primary key `id` — any existing row with the same `id` is replaced, never
duplicated. -/
def markRecordDownloaded (db : Ledger) (r : CallRecord) (localPath : String)
    (fileSize : Nat) (cityName domain : Option String) : Ledger :=
  ⟨r.id, r.recordCallId, r.callerNumber, r.durationSeconds, r.dateTime,
    localPath, fileSize, cityName, domain⟩ :: db.filter (fun row => row.id != r.id)

/-- Environment for `CallRecordsDownloader.download_record`: whether the
recording GET for a call id returns HTTP 200, and the size reported by
`os.path.getsize` for a written file. -/
structure DownloadEnv where
  downloadOk : String → Bool
  fileSize : String → Nat

/-- `CallRecordsDownloader.download_record`: with a falsy `record_call_id`
(`None` or the empty string) no request is issued and `None` is returned;
otherwise the recording is fetched and, on HTTP 200, written under
`download_dir` with the readable filename. -/
def downloadRecord (env : DownloadEnv) (downloadDir : String) (r : CallRecord) :
    Option String :=
  match r.recordCallId with
  | none => none
  | some cid =>
    if cid = "" then none
    else if env.downloadOk cid then
      some (downloadDir ++ "/" ++ r.getReadableFilename)
    else none

/-- Result of one `process_new_records` loop: how many files were downloaded,
which call ids had a recording GET issued for them, and the ledger afterwards. -/
structure ProcessResult where
  downloadedCount : Nat
  downloadAttempts : List String
  db : Ledger
deriving Repr, DecidableEq

/-- `CallRecordsDownloader.process_new_records`: for each record, skip it when
`is_record_downloaded(record.record_call_id)` holds, otherwise download it and
— on success — commit it to the ledger immediately. -/
def processNewRecords (env : DownloadEnv) (downloadDir : String)
    (cityName domain : Option String) (db : Ledger) :
    List CallRecord → ProcessResult
  | [] => ⟨0, [], db⟩
  | r :: rest =>
    if isRecordDownloaded db r.recordCallId then
      processNewRecords env downloadDir cityName domain db rest
    else
      match r.recordCallId with
      | none => processNewRecords env downloadDir cityName domain db rest
      | some cid =>
        if cid = "" then processNewRecords env downloadDir cityName domain db rest
        else if env.downloadOk cid then
          ⟨(processNewRecords env downloadDir cityName domain
              (markRecordDownloaded db r (downloadDir ++ "/" ++ r.getReadableFilename)
                (env.fileSize (downloadDir ++ "/" ++ r.getReadableFilename))
                cityName domain) rest).downloadedCount + 1,
            cid :: (processNewRecords env downloadDir cityName domain
              (markRecordDownloaded db r (downloadDir ++ "/" ++ r.getReadableFilename)
                (env.fileSize (downloadDir ++ "/" ++ r.getReadableFilename))
                cityName domain) rest).downloadAttempts,
            (processNewRecords env downloadDir cityName domain
              (markRecordDownloaded db r (downloadDir ++ "/" ++ r.getReadableFilename)
                (env.fileSize (downloadDir ++ "/" ++ r.getReadableFilename))
                cityName domain) rest).db⟩
        else
          ⟨(processNewRecords env downloadDir cityName domain db rest).downloadedCount,
            cid :: (processNewRecords env downloadDir cityName domain db rest).downloadAttempts,
            (processNewRecords env downloadDir cityName domain db rest).db⟩

end Rostelcom

namespace Svyaztransit

/-- Fields of the svyaztransit `CallRecord` used by the ledger commit
(call_records_watcher.py in src/svyaztransit). -/
structure CallRecord where
  id : String
  fileName : String
  startTime : String
  callDirection : String
  durationSeconds : Nat
deriving Repr, DecidableEq

/-- One row of the svyaztransit `downloaded_records` table: primary key `id`. -/
structure LedgerRow where
  id : String
  fileName : String
  startTime : String
  callDirection : String
  durationSeconds : Nat
  localPath : String
deriving Repr, DecidableEq

abbrev Ledger := List LedgerRow

/-- Svyaztransit `DatabaseManager.is_record_downloaded`: lookup keyed on the
`local_path` column, not on the record id. -/
def isRecordDownloaded (db : Ledger) (localPath : String) : Bool :=
  db.any (fun row => row.localPath == localPath)

/-- Svyaztransit `DatabaseManager.mark_record_downloaded`: `INSERT OR REPLACE`
keyed on the primary key `id` (`start_time` is stored through
`get_human_readable_time`, which we keep abstract as the given string). -/
def markRecordDownloaded (db : Ledger) (r : CallRecord) (localPath : String) :
    Ledger :=
  ⟨r.id, r.fileName, r.startTime, r.callDirection, r.durationSeconds,
    localPath⟩ :: db.filter (fun row => row.id != r.id)

end Svyaztransit

namespace Rostelcom

/-- Environment of one authorized request: the HTTP status the provider
answers to the n-th data request issued during the call, and whether a
`refresh_access_token` attempt succeeds. -/
structure HttpEnv where
  respond : Nat → Nat
  refreshOk : Bool

/-- Outcome of one `CloudPBXAuth.get`/`post` call: how many data requests hit
the provider, how many identical bare retries and token-renewal attempts were
made, the URL the data requests were sent to, and either the raised
`ValueError` message or the status of the response handed back. -/
structure RequestOutcome where
  requestsIssued : Nat
  bareRetries : Nat
  renewAttempts : Nat
  url : String
  response : Except String Nat
deriving Repr

/-- The `ValueError` text raised by `get`/`post` on an unauthenticated
session. -/
def authRequiredMsg : String :=
  "Требуется аутентификация. Вызовите authenticate() сначала."

/-- `CloudPBXAuth.get`: raise unless authenticated; issue the GET; on 401
retry once unmodified; if still 401 attempt a token renewal and, when it
succeeds, retry once more with the new token; when renewal fails return the
retry's failure response. -/
def cloudpbxGet (isAuthenticated : Bool) (baseUrl endpoint : String)
    (env : HttpEnv) : RequestOutcome :=
  if !isAuthenticated then ⟨0, 0, 0, "", .error authRequiredMsg⟩
  else
    let url := baseUrl ++ endpoint
    let r0 := env.respond 0
    if r0 != 401 then ⟨1, 0, 0, url, .ok r0⟩
    else
      let r1 := env.respond 1
      if r1 != 401 then ⟨2, 1, 0, url, .ok r1⟩
      else if env.refreshOk then ⟨3, 1, 1, url, .ok (env.respond 2)⟩
      else ⟨2, 1, 1, url, .ok r1⟩

/-- `CloudPBXAuth.post`: raise unless authenticated; issue the POST; on 401
attempt a token renewal directly (no bare retry) and, when it succeeds, retry
once with the new token; when renewal fails return the original failure
response. -/
def cloudpbxPost (isAuthenticated : Bool) (baseUrl endpoint : String)
    (env : HttpEnv) : RequestOutcome :=
  if !isAuthenticated then ⟨0, 0, 0, "", .error authRequiredMsg⟩
  else
    let url := baseUrl ++ endpoint
    let r0 := env.respond 0
    if r0 != 401 then ⟨1, 0, 0, url, .ok r0⟩
    else if env.refreshOk then ⟨2, 0, 1, url, .ok (env.respond 1)⟩
    else ⟨1, 0, 1, url, .ok r0⟩

end Rostelcom

namespace Svyaztransit

/-- `StranzitAuth.get_page`: raise `ValueError` unless `is_authenticated`;
otherwise issue the GET (`raise_for_status` turns 4xx/5xx into an exception). -/
def getPage (isAuthenticated : Bool) (env : Rostelcom.HttpEnv) :
    Rostelcom.RequestOutcome :=
  if !isAuthenticated then ⟨0, 0, 0, "", .error "Не выполнена аутентификация"⟩
  else
    let r0 := env.respond 0
    if r0 ≥ 400 then ⟨1, 0, 0, "", .error "HTTPError"⟩
    else ⟨1, 0, 0, "", .ok r0⟩

/-- `CallRecordsWatcher.get_filtered_records`: the call-history POST is issued
directly on `self.auth.session` — the `is_authenticated` flag is never
consulted, so exactly one outbound request is issued regardless of it. -/
def getFilteredRecordsRequest (_isAuthenticated : Bool)
    (env : Rostelcom.HttpEnv) : Rostelcom.RequestOutcome :=
  ⟨1, 0, 0, "https://lk.stranzit.ru/CallRecords/IndexGet", .ok (env.respond 0)⟩

/-- `CallRecordsWatcher.download_record` issues its recording GET directly on
`self.auth.session` as well, without consulting `is_authenticated`. -/
def downloadRecordRequest (_isAuthenticated : Bool) (recordId : String)
    (env : Rostelcom.HttpEnv) : Rostelcom.RequestOutcome :=
  ⟨1, 0, 0, "https://lk.stranzit.ru/CallRecords/DownloadRecord/" ++ recordId,
    .ok (env.respond 0)⟩

end Svyaztransit

/-- Outcome of one `run_once` poll cycle: it returned a download count, or it
raised an exception. -/
inductive CycleOutcome where
  | ok (downloaded : Nat)
  | raised
deriving Repr, DecidableEq

namespace Rostelcom

/-- `CallRecordsDownloader.run_continuous` over a finite schedule of cycle
outcomes: the body of the `while True` loop wraps each `run_once` in its own
`try/except Exception`, so a raising cycle is logged, contributes zero
downloads, and the loop sleeps and runs the next cycle.  Returns (number of
cycles executed, total downloads). -/
def runContinuous : List CycleOutcome → Nat × Nat
  | [] => (0, 0)
  | .ok n :: rest =>
    let (c, d) := runContinuous rest
    (c + 1, d + n)
  | .raised :: rest =>
    let (c, d) := runContinuous rest
    (c + 1, d)

end Rostelcom

namespace Svyaztransit

/-- `CallRecordsWatcher.run_continuous` over a finite schedule of cycle
outcomes: the `try/except Exception` sits OUTSIDE the `while` loop, so the
first cycle that raises ends the loop (the handler logs, optionally notifies,
and the method returns); later scheduled cycles never run.  Returns (number
of cycles executed, total downloads). -/
def runContinuous : List CycleOutcome → Nat × Nat
  | [] => (0, 0)
  | .ok n :: rest =>
    let (c, d) := runContinuous rest
    (c + 1, d + n)
  | .raised :: _ => (1, 0)

/-- State of `WatcherRestarter` (auto_restart.py): `restart_count` and
`last_restart_time` (`None` before the first restart).  Times are seconds. -/
structure RestarterState where
  restartCount : Nat
  lastRestartTime : Option Nat
deriving Repr, DecidableEq

/-- `timedelta.seconds` for a non-negative difference of timestamps: the
seconds component, i.e. the elapsed seconds modulo one day (the code uses
`.seconds`, not `.total_seconds()`). -/
def tdSeconds (now earlier : Nat) : Nat :=
  (now - earlier) % 86400

/-- `WatcherRestarter.should_restart`: refuse when the hourly ceiling is
reached and less than 3600 `.seconds` passed since the last restart; reset
the counter when at least 3600 `.seconds` passed; otherwise allow. -/
def shouldRestart (maxPerHour : Nat) (now : Nat) (s : RestarterState) :
    Bool × RestarterState :=
  if s.restartCount ≥ maxPerHour &&
      (match s.lastRestartTime with
       | some t => tdSeconds now t < 3600
       | none => false) then
    (false, s)
  else
    match s.lastRestartTime with
    | some t =>
      if tdSeconds now t ≥ 3600 then (true, { s with restartCount := 0 })
      else (true, s)
    | none => (true, s)

/-- `WatcherRestarter.restart_watcher` (successful-launch path): consult
`should_restart`; when allowed, relaunch and record
`restart_count += 1`, `last_restart_time = now`. -/
def restartWatcher (maxPerHour : Nat) (now : Nat) (s : RestarterState) :
    Bool × RestarterState :=
  if (shouldRestart maxPerHour now s).1 then
    (true, ⟨(shouldRestart maxPerHour now s).2.restartCount + 1, some now⟩)
  else (false, (shouldRestart maxPerHour now s).2)

/-- The monitor loop of `WatcherRestarter.run` driven by the times at which
`check_and_restart` finds the watcher process dead: returns the times at
which a restart was actually performed. -/
def runRestarter (maxPerHour : Nat) (s : RestarterState) : List Nat → List Nat
  | [] => []
  | t :: ts =>
    if (restartWatcher maxPerHour t s).1 then
      t :: runRestarter maxPerHour (restartWatcher maxPerHour t s).2 ts
    else runRestarter maxPerHour (restartWatcher maxPerHour t s).2 ts

end Svyaztransit

namespace Rostelcom

/-- `MultiAccountOrchestrator.monitor_processes` driven by the observations
of one tenant's dead worker: each observation carries the check time and the
worker's exit code.  Every abnormal exit is restarted after a fixed delay —
there is no restart counter and no hourly ceiling.  Returns the restart
times. -/
def monitorProcesses : List (Nat × Int) → List Nat
  | [] => []
  | (t, code) :: rest =>
    if code = 0 then monitorProcesses rest
    else t :: monitorProcesses rest

end Rostelcom

/-- Number of restart times falling in the hour-long window [T, T+3600). -/
def countInWindow (T : Nat) (times : List Nat) : Nat :=
  (times.filter (fun t => decide (T ≤ t ∧ t < T + 3600))).length

namespace Rostelcom

/-- Python `str.split(sep)` for a single-character separator. -/
def splitOnChar (sep : Char) : List Char → List (List Char)
  | [] => [[]]
  | c :: cs =>
    let r := splitOnChar sep cs
    if c = sep then [] :: r
    else
      match r with
      | h :: t => (c :: h) :: t
      | [] => [[c]]

/-- Value of one base64 alphabet character (after the urlsafe translation),
`none` for a character outside the alphabet. -/
def b64CharValue (c : Char) : Option Nat :=
  if 'A' ≤ c ∧ c ≤ 'Z' then some (c.toNat - 65)
  else if 'a' ≤ c ∧ c ≤ 'z' then some (c.toNat - 97 + 26)
  else if '0' ≤ c ∧ c ≤ '9' then some (c.toNat - 48 + 52)
  else if c = '+' then some 62
  else if c = '/' then some 63
  else none

/-- Decode base64 quads into bytes; padding `=` is accepted only at the very
end (one or two characters), and a leftover of 1–3 characters is an error —
the `binascii.Error` paths of `base64.urlsafe_b64decode`. -/
def b64DecodeQuads : List Char → Option (List Nat)
  | [] => some []
  | a :: b :: c :: d :: rest =>
    match b64CharValue a, b64CharValue b with
    | some va, some vb =>
      if c = '=' then
        if d = '=' ∧ rest = [] then some [va * 4 + vb / 16] else none
      else
        match b64CharValue c with
        | some vc =>
          if d = '=' then
            if rest = [] then some [va * 4 + vb / 16, (vb % 16) * 16 + vc / 4]
            else none
          else
            match b64CharValue d with
            | some vd =>
              (b64DecodeQuads rest).map
                (fun bs => (va * 4 + vb / 16) :: ((vb % 16) * 16 + vc / 4) ::
                  ((vc % 4) * 64 + vd) :: bs)
            | none => none
        | none => none
    | _, _ => none
  | _ => none

/-- `base64.urlsafe_b64decode`: translate `-`/`_` to `+`/`/`, drop characters
outside the alphabet (the default non-validating mode), then decode quads. -/
def urlsafeB64Decode (cs : List Char) : Option (List Nat) :=
  let translated := cs.map
    (fun c => if c = '-' then '+' else if c = '_' then '/' else c)
  let kept := translated.filter (fun c => (b64CharValue c).isSome || c = '=')
  b64DecodeQuads kept

/-- `bytes` → text for `json.loads`: only the ASCII fragment of UTF-8 is
modelled; a byte ≥ 128 makes the decode fail. -/
def bytesToAsciiChars (bs : List Nat) : Option (List Char) :=
  if bs.all (fun b => b < 128) then some (bs.map Char.ofNat)
  else none

/-- JSON values, as produced by `json.loads` (floats and `\u` escapes are not
modelled; the token payloads of interest hold strings and integers). -/
inductive Json where
  | null
  | boolean (b : Bool)
  | num (n : Int)
  | str (s : String)
  | arr (elems : List Json)
  | obj (members : List (String × Json))
deriving Inhabited

/-- The two brace characters, named so they can appear in code positions. -/
def lbraceChar : Char := Char.ofNat 123

def rbraceChar : Char := Char.ofNat 125

/-- Skip JSON whitespace. -/
def skipWs (cs : List Char) : List Char :=
  cs.dropWhile (fun c => c = ' ' || c = '\t' || c = '\n' || c = '\r')

/-- Parse the body of a JSON string after the opening quote, handling the
single-character escapes; the flag records a pending backslash. -/
def parseJsonStringCharsAux : Bool → List Char → Option (List Char × List Char)
  | _, [] => none
  | true, e :: rest =>
    let esc : Option Char :=
      match e with
      | '"' => some '"'
      | '\\' => some '\\'
      | '/' => some '/'
      | 'n' => some '\n'
      | 't' => some '\t'
      | 'r' => some '\r'
      | 'b' => some (Char.ofNat 8)
      | 'f' => some (Char.ofNat 12)
      | _ => none
    match esc with
    | some ch => (parseJsonStringCharsAux false rest).map (fun p => (ch :: p.1, p.2))
    | none => none
  | false, '"' :: rest => some ([], rest)
  | false, '\\' :: rest => parseJsonStringCharsAux true rest
  | false, c :: rest =>
    (parseJsonStringCharsAux false rest).map (fun p => (c :: p.1, p.2))

/-- Parse the body of a JSON string after the opening quote. -/
def parseJsonStringChars (cs : List Char) : Option (List Char × List Char) :=
  parseJsonStringCharsAux false cs

/-- Parse a JSON integer (optional minus sign, then digits). -/
def parseJsonInt (cs : List Char) : Option (Int × List Char) :=
  match cs with
  | '-' :: rest =>
    let ds := rest.takeWhile (fun c => c.isDigit)
    if ds.isEmpty then none
    else some (-(digitsToNat ds : Int), rest.dropWhile (fun c => c.isDigit))
  | _ =>
    let ds := cs.takeWhile (fun c => c.isDigit)
    if ds.isEmpty then none
    else some ((digitsToNat ds : Int), cs.dropWhile (fun c => c.isDigit))

mutual

/-- Recursive-descent JSON value parser, fuelled for termination. -/
def parseJsonValue : Nat → List Char → Option (Json × List Char)
  | 0, _ => none
  | fuel + 1, cs =>
    match skipWs cs with
    | [] => none
    | 'n' :: 'u' :: 'l' :: 'l' :: rest => some (.null, rest)
    | 't' :: 'r' :: 'u' :: 'e' :: rest => some (.boolean true, rest)
    | 'f' :: 'a' :: 'l' :: 's' :: 'e' :: rest => some (.boolean false, rest)
    | '"' :: rest =>
      (parseJsonStringChars rest).map (fun p => (.str (String.mk p.1), p.2))
    | '[' :: rest => parseJsonElems fuel (skipWs rest)
    | c :: rest =>
      if c = lbraceChar then parseJsonMembers fuel (skipWs rest)
      else if c = '-' || c.isDigit then
        (parseJsonInt (c :: rest)).map (fun p => (.num p.1, p.2))
      else none

/-- Parse array elements after `[` (possibly the empty array). -/
def parseJsonElems : Nat → List Char → Option (Json × List Char)
  | 0, _ => none
  | fuel + 1, cs =>
    match cs with
    | ']' :: rest => some (.arr [], rest)
    | _ =>
      match parseJsonValue fuel cs with
      | none => none
      | some (v, r1) =>
        match parseJsonElemsRest fuel (skipWs r1) with
        | some (.arr vs, r2) => some (.arr (v :: vs), r2)
        | _ => none

/-- Parse `, value`* `]`. -/
def parseJsonElemsRest : Nat → List Char → Option (Json × List Char)
  | 0, _ => none
  | fuel + 1, cs =>
    match cs with
    | ']' :: rest => some (.arr [], rest)
    | ',' :: r1 =>
      match parseJsonValue fuel r1 with
      | none => none
      | some (v, r2) =>
        match parseJsonElemsRest fuel (skipWs r2) with
        | some (.arr vs, r3) => some (.arr (v :: vs), r3)
        | _ => none
    | _ => none

/-- Parse object members after the opening brace (possibly the empty object). -/
def parseJsonMembers : Nat → List Char → Option (Json × List Char)
  | 0, _ => none
  | fuel + 1, cs =>
    match cs with
    | [] => none
    | c :: rest =>
      if c = rbraceChar then some (.obj [], rest)
      else parseJsonMember fuel cs

/-- Parse one `"key": value` pair and then the remaining members. -/
def parseJsonMember : Nat → List Char → Option (Json × List Char)
  | 0, _ => none
  | fuel + 1, cs =>
    match cs with
    | '"' :: r0 =>
      match parseJsonStringChars r0 with
      | none => none
      | some (kcs, r1) =>
        match skipWs r1 with
        | ':' :: r2 =>
          match parseJsonValue fuel r2 with
          | none => none
          | some (v, r3) =>
            match parseJsonMembersRest fuel (skipWs r3) with
            | some (.obj ms, r4) =>
              some (.obj ((String.mk kcs, v) :: ms), r4)
            | _ => none
        | _ => none
    | _ => none

/-- Parse `, "key": value`* and the closing brace. -/
def parseJsonMembersRest : Nat → List Char → Option (Json × List Char)
  | 0, _ => none
  | fuel + 1, cs =>
    match cs with
    | ',' :: r1 => parseJsonMember fuel (skipWs r1)
    | c :: rest => if c = rbraceChar then some (.obj [], rest) else none
    | _ => none

end

/-- `json.loads` on a text payload: parse one value and require the rest of
the input to be whitespace. -/
def jsonLoads (cs : List Char) : Option Json :=
  match parseJsonValue (cs.length + 2) cs with
  | some (v, rest) => if skipWs rest = [] then some v else none
  | none => none

/-- `dict.get(key)` on a parsed JSON object; later duplicate keys win, as in
`json.loads`. -/
def jsonObjGet (members : List (String × Json)) (key : String) : Option Json :=
  members.foldl (fun acc kv => if kv.1 = key then some kv.2 else acc) none

/-- Python truthiness of a JSON value. -/
def jsonTruthy : Json → Bool
  | .null => false
  | .boolean b => b
  | .num n => n != 0
  | .str s => s ≠ ""
  | .arr xs => !xs.isEmpty
  | .obj ms => !ms.isEmpty

/-- The string a truthy claim value turns into when the session later builds
request URLs with an f-string (only the string case is exercised by real
tokens). -/
def pyStrOfJson : Json → String
  | .str s => s
  | .num n => toString n
  | .boolean true => "True"
  | .boolean false => "False"
  | .null => "None"
  | .arr _ => "<list>"
  | .obj _ => "<dict>"

/-- `CloudPBXAuth._extract_base_url_from_token`: take the second dot-separated
segment, restore base64 right-padding from its length, urlsafe-decode it,
`json.loads` the bytes, and read the truthy `iss` claim of the resulting
dict; every failure along the way yields `None` (the broad `except`). -/
def extractBaseUrlFromToken (token : String) : Option String :=
  match splitOnChar '.' token.toList with
  | _ :: payloadPart :: _ =>
    let padding := payloadPart.length % 4
    let padded :=
      if padding ≠ 0 then payloadPart ++ List.replicate (4 - padding) '='
      else payloadPart
    match urlsafeB64Decode padded with
    | none => none
    | some bytes =>
      match bytesToAsciiChars bytes with
      | none => none
      | some payloadChars =>
        match jsonLoads payloadChars with
        | some (.obj members) =>
          match jsonObjGet members "iss" with
          | some v => if jsonTruthy v then some (pyStrOfJson v) else none
          | none => none
        | _ => none
  | _ => none

/-- The JSON body of a 200 reply to the `/auth` POST, as read by
`authenticate` (`data.get('token')`, `data.get('refresh_token')`). -/
structure AuthResp where
  status : Nat
  token : Option String
  refreshToken : Option String
deriving Repr, DecidableEq

/-- The session state `authenticate` leaves behind. -/
structure AuthState where
  isAuthenticated : Bool
  baseUrl : String
  token : Option String
  refreshToken : Option String
deriving Repr, DecidableEq

/-- `CloudPBXAuth.authenticate` on a fresh session: `none` models a network
error or unexpected exception during the POST.  On HTTP 200 the tokens are
stored, `is_authenticated` is set, and the endpoint is switched to the
token's `iss` claim when one is extracted and differs from the default; a
missing `token` field makes the success-path logging raise, which the broad
`except` turns into `is_authenticated = False` and a `False` return.  Every
non-200 or exceptional path returns `False` with `is_authenticated = False`. -/
def authenticate (defaultBaseUrl : String) (resp : Option AuthResp) :
    Bool × AuthState :=
  match resp with
  | none => (false, ⟨false, defaultBaseUrl, none, none⟩)
  | some r =>
    if r.status = 200 then
      let detected :=
        match r.token with
        | none => none
        | some t => extractBaseUrlFromToken t
      let newBase :=
        match detected with
        | some u => if u = defaultBaseUrl then defaultBaseUrl else u
        | none => defaultBaseUrl
      match r.token with
      | some t => (true, ⟨true, newBase, some t, r.refreshToken⟩)
      | none => (false, ⟨false, newBase, none, r.refreshToken⟩)
    else
      (false, ⟨false, defaultBaseUrl, none, none⟩)

end Rostelcom

namespace Rostelcom

/-- Arguments of one `mark_record_downloaded` call. -/
structure CommitArgs where
  record : CallRecord
  localPath : String
  fileSize : Nat
  cityName : Option String
  domain : Option String
deriving Repr, DecidableEq

/-- A sequence of ledger commits, possibly spanning many poll cycles,
applied to an initially empty table. -/
def commitAll (commits : List CommitArgs) : Ledger :=
  commits.foldl
    (fun db c =>
      markRecordDownloaded db c.record c.localPath c.fileSize c.cityName c.domain)
    []

/-- An environment whose data endpoint always answers 401 and whose token
renewal always fails. -/
def always401Env : HttpEnv := ⟨fun _ => 401, false⟩

/-- The spec's duration test set: records with durations 60/180/181/3600,
all incoming with recordings. -/
def rec60 : CallRecord := ⟨"r60", "2025-01-15 10:00:00+05:00", "group", "7912", true, some "r60", 60⟩

def rec180 : CallRecord := ⟨"r180", "2025-01-15 10:01:00+05:00", "group", "7912", true, some "r180", 180⟩

def rec181 : CallRecord := ⟨"r181", "2025-01-15 10:02:00+05:00", "group", "7912", true, some "r181", 181⟩

def rec3600 : CallRecord := ⟨"r3600", "2025-01-15 10:03:00+05:00", "group", "7912", true, some "r3600", 3600⟩

def durationDemoRecords : List CallRecord := [rec60, rec180, rec181, rec3600]

/-- The spec's direction test set: mixed call directions, all with recordings. -/
def recGroupIn : CallRecord := ⟨"d1", "2025-01-15 11:00:00+05:00", "group", "7913", true, some "d1", 200⟩

def recOut : CallRecord := ⟨"d2", "2025-01-15 11:01:00+05:00", "out", "7913", true, some "d2", 200⟩

def recGroupSkip : CallRecord := ⟨"d3", "2025-01-15 11:02:00+05:00", "group_skip", "7913", true, some "d3", 200⟩

def directionDemoRecords : List CallRecord := [recGroupIn, recOut, recGroupSkip]

/-- The default CloudPBX endpoint (`CloudPBXAuth.BASE_URL`). -/
def defaultBaseUrl : String := "https://p2.cloudpbx.rt.ru/webapi"

/-- A JWT whose payload segment decodes to a JSON object whose `iss` claim is
the p1 CloudPBX endpoint. -/
def tokenWithP1Issuer : String :=
  "hdr.eyJpc3MiOiJodHRwczovL3AxLmNsb3VkcGJ4LnJ0LnJ1L3dlYmFwaSJ9.sig"

end Rostelcom

namespace Svyaztransit

/-- Arguments of one svyaztransit `mark_record_downloaded` call. -/
structure CommitArgs where
  record : CallRecord
  localPath : String
deriving Repr, DecidableEq

/-- A sequence of svyaztransit ledger commits applied to an initially empty
table. -/
def commitAll (commits : List CommitArgs) : Ledger :=
  commits.foldl (fun db c => markRecordDownloaded db c.record c.localPath) []

end Svyaztransit

namespace Rostelcom

/-- A record is kept by `filter_records` iff it is in the input and has a
recording, its duration reaches the minimum, and it is incoming whenever the
incoming-only filter is on. -/
theorem mem_filterRecords_iff (cfg : FilterConfig) (rs : List CallRecord) (r : CallRecord) :
    r ∈ filterRecords cfg rs ↔
      r ∈ rs ∧ r.isAnswered = true ∧ cfg.minDuration ≤ r.durationSeconds ∧
        (cfg.onlyIncoming = false ∨ r.isIncoming = true) := by
  induction rs with
  | nil => simp [filterRecords]
  | cons a rest ih =>
    simp only [filterRecords]
    split_ifs with h1 h2 h3
    · rw [ih]
      simp only [List.mem_cons]
      constructor
      · rintro ⟨hm, rest⟩; exact ⟨Or.inr hm, rest⟩
      · rintro ⟨hm | hm, hans, hrest⟩
        · subst hm; simp_all
        · exact ⟨hm, hans, hrest⟩
    · rw [ih]
      simp only [List.mem_cons]
      constructor
      · rintro ⟨hm, rest⟩; exact ⟨Or.inr hm, rest⟩
      · rintro ⟨hm | hm, hans, hd, hdir⟩
        · subst hm; omega
        · exact ⟨hm, hans, hd, hdir⟩
    · rw [ih]
      simp only [List.mem_cons]
      constructor
      · rintro ⟨hm, rest⟩; exact ⟨Or.inr hm, rest⟩
      · rintro ⟨hm | hm, hans, hd, hdir⟩
        · subst hm; simp_all
        · exact ⟨hm, hans, hd, hdir⟩
    · simp only [List.mem_cons, ih]
      constructor
      · rintro (hm | ⟨hm, rest⟩)
        · subst hm
          have hans : r.isAnswered = true := by simpa using h1
          have hdur : cfg.minDuration ≤ r.durationSeconds := by omega
          refine ⟨Or.inl rfl, hans, hdur, ?_⟩
          rcases Bool.eq_false_or_eq_true cfg.onlyIncoming with hoi | hoi
          · right
            by_contra hc
            have hin : r.isIncoming = false := by simpa using hc
            exact h3 (by simp [hoi, hin])
          · exact Or.inl hoi
        · exact ⟨Or.inr hm, rest⟩
      · rintro ⟨hm | hm, hans, hd, hdir⟩
        · exact Or.inl (by subst hm; rfl)
        · exact Or.inr ⟨hm, hans, hd, hdir⟩

/-- With the minimum duration at 0 and the incoming-only filter off, the
filter keeps exactly the records with a recording. -/
theorem filterRecords_no_predicates (rs : List CallRecord) :
    filterRecords ⟨0, false⟩ rs = rs.filter (fun r => r.isAnswered) := by
  induction rs with
  | nil => rfl
  | cons a rest ih =>
    by_cases h : a.isAnswered = true <;> simp [filterRecords, List.filter, h, ih]

end Rostelcom

open Rostelcom in
/-- C6: a record passes the filter chain iff all enabled predicates pass — it
has a recording, its duration is at least `min_duration_seconds` (the
boundary value passes: durations [60, 180, 181, 3600] with minimum 180 yield
exactly [180, 181, 3600]), and when the incoming-only filter is enabled it is
incoming-tagged; with no predicate enabled, every record with a recording
passes. -/
theorem c6_filter_chain_correct :
    (∀ (cfg : FilterConfig) (rs : List CallRecord) (r : CallRecord),
        r ∈ filterRecords cfg rs ↔
          r ∈ rs ∧ r.isAnswered = true ∧ cfg.minDuration ≤ r.durationSeconds ∧
            (cfg.onlyIncoming = false ∨ r.isIncoming = true)) ∧
    filterRecords ⟨180, false⟩ durationDemoRecords = [rec180, rec181, rec3600] ∧
    (∀ rs : List CallRecord, filterRecords ⟨0, false⟩ rs = rs.filter (fun r => r.isAnswered)) ∧
    filterRecords ⟨0, true⟩ directionDemoRecords = [recGroupIn, recGroupSkip] :=
  ⟨mem_filterRecords_iff, by decide, filterRecords_no_predicates, by decide⟩

open Rostelcom in
/-- C7: the record with timestamp `2025-01-15 14:30:45+05:00`, caller
`+79991234567` and recording duration 201 yields exactly the filename
`2025-01-15_14-30-45_79991234567_201sec.mp3`, and every record whose
timestamp fails to parse falls back to `call_{id}.mp3` — the fallback is
total. -/
theorem c7_filename_determinism :
    CallRecord.getReadableFilename
        ⟨"123", "2025-01-15 14:30:45+05:00", "group", "+79991234567", true, some "123", 201⟩
      = "2025-01-15_14-30-45_79991234567_201sec.mp3" ∧
    ∀ r : CallRecord,
      strptimeYmdHms (pyStrip (r.dateTime.toList.takeWhile (fun c => c != '+'))) = none →
        r.getReadableFilename = "call_" ++ r.id ++ ".mp3" := by
  constructor
  · decide
  · intro r h
    simp only [String.toList] at h
    simp [CallRecord.getReadableFilename, String.toList, h]

open Rostelcom in
/-- C7 witness: a concrete record with the unparsable timestamp
`"not a date"` falls back to `call_42.mp3`. -/
theorem c7_filename_determinism_witness :
    strptimeYmdHms (pyStrip (("not a date").toList.takeWhile (fun c => c != '+'))) = none ∧
    CallRecord.getReadableFilename ⟨"42", "not a date", "out", "7999", true, some "42", 5⟩
      = "call_42.mp3" :=
  ⟨by decide, c7_filename_determinism.2
    ⟨"42", "not a date", "out", "7999", true, some "42", 5⟩ (by decide)⟩

open Rostelcom in
/-- C2 counterexample: on a session that always answers 401, the POST path
performs zero bare retries (it goes straight to the renewal attempt), not the
single bare retry the claim asserts for every authorized request. -/
theorem c2_post_skips_bare_retry :
    (cloudpbxPost true defaultBaseUrl "/domain/call_history" always401Env).bareRetries = 0 ∧
    (cloudpbxPost true defaultBaseUrl "/domain/call_history" always401Env).renewAttempts = 1 ∧
    (cloudpbxPost true defaultBaseUrl "/domain/call_history" always401Env).bareRetries ≠ 1 :=
  ⟨rfl, rfl, by decide⟩

open Rostelcom in
/-- C2 (amended): the GET path follows the full policy — at most 3 requests,
one bare retry exactly when the first response is 401, one renewal attempt
exactly when the bare retry also fails, and the last failure response is
returned when renewal fails; the POST path performs no bare retry, at most
one renewal attempt, one retry with the new token on success, and returns the
original failure response when renewal fails.  Neither loops. -/
theorem c2_amended_policy : ∀ (base ep : String) (env : HttpEnv),
    (cloudpbxGet true base ep env).requestsIssued ≤ 3 ∧
    (cloudpbxGet true base ep env).bareRetries = (if env.respond 0 = 401 then 1 else 0) ∧
    (cloudpbxGet true base ep env).renewAttempts =
      (if env.respond 0 = 401 ∧ env.respond 1 = 401 then 1 else 0) ∧
    (cloudpbxGet true base ep env).response = .ok
      (if env.respond 0 ≠ 401 then env.respond 0
       else if env.respond 1 ≠ 401 then env.respond 1
       else if env.refreshOk then env.respond 2 else env.respond 1) ∧
    (cloudpbxPost true base ep env).requestsIssued ≤ 2 ∧
    (cloudpbxPost true base ep env).bareRetries = 0 ∧
    (cloudpbxPost true base ep env).renewAttempts = (if env.respond 0 = 401 then 1 else 0) ∧
    (cloudpbxPost true base ep env).response = .ok
      (if env.respond 0 ≠ 401 then env.respond 0
       else if env.refreshOk then env.respond 1 else env.respond 0) := by
  intro base ep env
  by_cases h0 : env.respond 0 = 401 <;> by_cases h1 : env.respond 1 = 401 <;>
    by_cases hr : env.refreshOk = true <;>
      simp [cloudpbxGet, cloudpbxPost, h0, h1, hr]

open Rostelcom Svyaztransit in
/-- C3 counterexample: the svyaztransit call-history fetch issues its POST on
an unauthenticated session — one outbound request, a normal response, no
error. -/
theorem c3_unauthenticated_fetch_contacts_provider :
    (Svyaztransit.getFilteredRecordsRequest false ⟨fun _ => 200, true⟩).requestsIssued = 1 ∧
    (Svyaztransit.getFilteredRecordsRequest false ⟨fun _ => 200, true⟩).response = .ok 200 :=
  ⟨rfl, rfl⟩

open Rostelcom Svyaztransit in
/-- C3 (amended): the rostelcom `get`/`post` and the svyaztransit `get_page`
raise and issue no request on an unauthenticated session, but the
svyaztransit watcher's call-history fetch and recording download use the raw
session directly and issue exactly one request regardless of the
authentication flag. -/
theorem c3_amended_guards : ∀ (base ep rid : String) (env : HttpEnv) (auth : Bool),
    (cloudpbxGet false base ep env).requestsIssued = 0 ∧
    (cloudpbxGet false base ep env).response = .error authRequiredMsg ∧
    (cloudpbxPost false base ep env).requestsIssued = 0 ∧
    (cloudpbxPost false base ep env).response = .error authRequiredMsg ∧
    (Svyaztransit.getPage false env).requestsIssued = 0 ∧
    (Svyaztransit.getFilteredRecordsRequest auth env).requestsIssued = 1 ∧
    (Svyaztransit.downloadRecordRequest auth rid env).requestsIssued = 1 := by
  intro base ep rid env auth
  exact ⟨rfl, rfl, rfl, rfl, rfl, rfl, rfl⟩

/-- C4 counterexample: with the schedule [raising cycle, cycle downloading
5], the svyaztransit loop executes only the first cycle and terminates — the
second scheduled cycle never runs — while the rostelcom loop executes both. -/
theorem c4_svyaztransit_cycle_exception_stops_loop :
    Svyaztransit.runContinuous [.raised, .ok 5] = (1, 0) ∧
    Rostelcom.runContinuous [.raised, .ok 5] = (2, 5) :=
  ⟨rfl, rfl⟩

/-- C4 (amended): the rostelcom controller catches each cycle's exception
inside the loop, so every scheduled cycle executes and a raising cycle
behaves as an empty one; the svyaztransit controller's handler sits outside
the loop, so a raising cycle terminates the continuous loop. -/
theorem c4_amended_containment :
    (∀ outs : List CycleOutcome, (Rostelcom.runContinuous outs).1 = outs.length) ∧
    (∀ rest : List CycleOutcome,
        Rostelcom.runContinuous (.raised :: rest) =
          ((Rostelcom.runContinuous rest).1 + 1, (Rostelcom.runContinuous rest).2)) ∧
    (∀ rest : List CycleOutcome, Svyaztransit.runContinuous (.raised :: rest) = (1, 0)) := by
  refine ⟨?_, ?_, ?_⟩
  · intro outs
    induction outs with
    | nil => rfl
    | cons o rest ih =>
      cases o <;> simp [Rostelcom.runContinuous, ih]
  · intro rest; rfl
  · intro rest; rfl

namespace Rostelcom

/-- A ledger commit leaves exactly one row with the committed record's id and
does not change the row count of any other id. -/
theorem countP_markRecordDownloaded (db : Ledger) (r : CallRecord) (p : String)
    (sz : Nat) (c d : Option String) (x : String) :
    (markRecordDownloaded db r p sz c d).countP (fun row => row.id == x) =
      if r.id = x then 1 else db.countP (fun row => row.id == x) := by
  simp only [markRecordDownloaded, List.countP_cons, List.countP_filter]
  by_cases he : r.id = x
  · subst he
    simp only [beq_self_eq_true, if_pos rfl, if_true]
    have : ∀ row : LedgerRow, ((row.id == r.id) && (row.id != r.id)) = false := by
      intro row; by_cases h : row.id = r.id <;> simp [h]
    rw [List.countP_congr (fun a _ => by rw [this a])]
    simp [List.countP_false]
  · simp only [he, if_false]
    have hb : (r.id == x) = false := by simp [he]
    rw [hb]
    have : ∀ row : LedgerRow, ((row.id == x) && (row.id != r.id)) = (row.id == x) := by
      intro row
      by_cases h : row.id = x
      · subst h
        have hxr : row.id ≠ r.id := fun h' => he h'.symm
        simp [hxr]
      · simp [h]
    rw [List.countP_congr (fun a _ => by rw [this a])]
    simp

/-- After any sequence of commits, an id committed at least once has exactly
one row and other ids keep their prior count. -/
theorem countP_commit_foldl (cs : List CommitArgs) (db : Ledger) (x : String) :
    ((cs.foldl
        (fun db c => markRecordDownloaded db c.record c.localPath c.fileSize c.cityName c.domain)
        db).countP (fun row => row.id == x)) =
      if x ∈ cs.map (fun c => c.record.id) then 1
      else db.countP (fun row => row.id == x) := by
  induction cs generalizing db with
  | nil => simp
  | cons c rest ih =>
    simp only [List.foldl_cons, List.map_cons, List.mem_cons]
    rw [ih]
    by_cases hx : x ∈ rest.map (fun c => c.record.id)
    · simp [hx]
    · simp only [hx, if_false, or_false, countP_markRecordDownloaded]
      by_cases he : c.record.id = x
      · simp [he]
      · simp only [he, if_false]
        rw [if_neg (fun h => he h.symm)]

end Rostelcom

namespace Svyaztransit

/-- Svyaztransit variant of the per-commit row-count lemma. -/
theorem countP_markRecordDownloadedSt (db : Ledger) (r : CallRecord) (p : String)
    (x : String) :
    (markRecordDownloaded db r p).countP (fun row => row.id == x) =
      if r.id = x then 1 else db.countP (fun row => row.id == x) := by
  simp only [markRecordDownloaded, List.countP_cons, List.countP_filter]
  by_cases he : r.id = x
  · subst he
    simp only [beq_self_eq_true, if_pos rfl, if_true]
    have : ∀ row : LedgerRow, ((row.id == r.id) && (row.id != r.id)) = false := by
      intro row; by_cases h : row.id = r.id <;> simp [h]
    rw [List.countP_congr (fun a _ => by rw [this a])]
    simp [List.countP_false]
  · simp only [he, if_false]
    have hb : (r.id == x) = false := by simp [he]
    rw [hb]
    have : ∀ row : LedgerRow, ((row.id == x) && (row.id != r.id)) = (row.id == x) := by
      intro row
      by_cases h : row.id = x
      · subst h
        have hxr : row.id ≠ r.id := fun h' => he h'.symm
        simp [hxr]
      · simp [h]
    rw [List.countP_congr (fun a _ => by rw [this a])]
    simp

/-- Svyaztransit variant of the commit-sequence row-count lemma. -/
theorem countP_commit_foldlSt (cs : List CommitArgs) (db : Ledger) (x : String) :
    ((cs.foldl (fun db c => markRecordDownloaded db c.record c.localPath) db).countP
        (fun row => row.id == x)) =
      if x ∈ cs.map (fun c => c.record.id) then 1
      else db.countP (fun row => row.id == x) := by
  induction cs generalizing db with
  | nil => simp
  | cons c rest ih =>
    simp only [List.foldl_cons, List.map_cons, List.mem_cons]
    rw [ih]
    by_cases hx : x ∈ rest.map (fun c => c.record.id)
    · simp [hx]
    · simp only [hx, if_false, or_false, countP_markRecordDownloadedSt]
      by_cases he : c.record.id = x
      · simp [he]
      · simp only [he, if_false]
        rw [if_neg (fun h => he h.symm)]

end Svyaztransit

/-- C5: in both pipelines the ledger commit is an idempotent upsert keyed on
the record's stable id — re-committing the same id just overwrites the
metadata columns without creating a second row, and after any number of
commits over overlapping record sets the ledger holds exactly one row per
distinct committed id. -/
theorem c5_ledger_upsert :
    (∀ (db : Rostelcom.Ledger) (r : Rostelcom.CallRecord) (p1 p2 : String) (s1 s2 : Nat)
        (c1 c2 d1 d2 : Option String),
        Rostelcom.markRecordDownloaded (Rostelcom.markRecordDownloaded db r p1 s1 c1 d1)
            r p2 s2 c2 d2
          = Rostelcom.markRecordDownloaded db r p2 s2 c2 d2) ∧
    (∀ (cs : List Rostelcom.CommitArgs) (x : String),
        (Rostelcom.commitAll cs).countP (fun row => row.id == x) =
          if x ∈ cs.map (fun c => c.record.id) then 1 else 0) ∧
    (∀ (db : Svyaztransit.Ledger) (r : Svyaztransit.CallRecord) (p1 p2 : String),
        Svyaztransit.markRecordDownloaded (Svyaztransit.markRecordDownloaded db r p1) r p2
          = Svyaztransit.markRecordDownloaded db r p2) ∧
    (∀ (cs : List Svyaztransit.CommitArgs) (x : String),
        (Svyaztransit.commitAll cs).countP (fun row => row.id == x) =
          if x ∈ cs.map (fun c => c.record.id) then 1 else 0) := by
  refine ⟨?_, ?_, ?_, ?_⟩
  · intro db r p1 p2 s1 s2 c1 c2 d1 d2
    simp [Rostelcom.markRecordDownloaded, List.filter_filter]
  · intro cs x
    simpa using Rostelcom.countP_commit_foldl cs [] x
  · intro db r p1 p2
    simp [Svyaztransit.markRecordDownloaded, List.filter_filter]
  · intro cs x
    simpa using Svyaztransit.countP_commit_foldlSt cs [] x

namespace Rostelcom

/-- Every data request of an authenticated `get` call is sent to
`BASE_URL ++ endpoint`. -/
theorem cloudpbxGet_url (b ep : String) (env : HttpEnv) :
    (cloudpbxGet true b ep env).url = b ++ ep := by
  simp only [cloudpbxGet]
  split_ifs <;> simp_all

end Rostelcom

open Rostelcom in
/-- C10: whenever `authenticate` returns `False` — non-200 response, network
error, or the unexpected exception of the success path — the session's
`is_authenticated` flag is false afterwards, so every subsequent data request
on that session raises instead of being sent. -/
theorem c10_auth_failure_clears_flag (base : String) (resp : Option AuthResp)
    (h : (authenticate base resp).1 = false) :
    (authenticate base resp).2.isAuthenticated = false ∧
    ∀ (ep : String) (env : HttpEnv),
      (cloudpbxGet (authenticate base resp).2.isAuthenticated
          (authenticate base resp).2.baseUrl ep env).requestsIssued = 0 ∧
      (cloudpbxGet (authenticate base resp).2.isAuthenticated
          (authenticate base resp).2.baseUrl ep env).response = .error authRequiredMsg := by
  have hflag : (authenticate base resp).2.isAuthenticated = false := by
    match resp with
    | none => rfl
    | some r =>
      by_cases hs : r.status = 200
      · match ht : r.token with
        | some t => simp [authenticate, hs, ht] at h
        | none => simp [authenticate, hs, ht]
      · simp [authenticate, hs]
  refine ⟨hflag, ?_⟩
  intro ep env
  rw [hflag]
  exact ⟨rfl, rfl⟩

open Rostelcom in
/-- C10 witness: a concrete 500 reply leaves the flag false and a subsequent
`get` issues no request. -/
theorem c10_auth_failure_clears_flag_witness :
    (authenticate defaultBaseUrl (some ⟨500, none, none⟩)).1 = false ∧
    (authenticate defaultBaseUrl (some ⟨500, none, none⟩)).2.isAuthenticated = false ∧
    (cloudpbxGet (authenticate defaultBaseUrl (some ⟨500, none, none⟩)).2.isAuthenticated
        (authenticate defaultBaseUrl (some ⟨500, none, none⟩)).2.baseUrl
        "/domain/call_history" always401Env).requestsIssued = 0 := by
  have h := c10_auth_failure_clears_flag defaultBaseUrl (some ⟨500, none, none⟩) rfl
  exact ⟨rfl, h.1, (h.2 "/domain/call_history" always401Env).1⟩

open Rostelcom in
/-- C8: on a 200 reply carrying a token, `authenticate` succeeds, decodes the
token's second dot-separated segment (base64url with right-padding restored)
and reads its `iss` claim; when a claim is extracted and differs from the
configured default endpoint the session's base URL becomes the discovered
endpoint, otherwise (absent claim or malformed segment) the default endpoint
is retained — and all subsequent requests of the session are sent to the
resulting base URL. -/
theorem c8_endpoint_discovery (base : String) (r : AuthResp) (t : String)
    (hst : r.status = 200) (htok : r.token = some t) :
    (authenticate base (some r)).1 = true ∧
    (authenticate base (some r)).2.isAuthenticated = true ∧
    (authenticate base (some r)).2.baseUrl =
      (match extractBaseUrlFromToken t with
       | some u => if u = base then base else u
       | none => base) ∧
    ∀ (ep : String) (env : HttpEnv),
      (cloudpbxGet (authenticate base (some r)).2.isAuthenticated
          (authenticate base (some r)).2.baseUrl ep env).url =
        (authenticate base (some r)).2.baseUrl ++ ep := by
  have ha : authenticate base (some r) =
      (true, ⟨true,
        (match extractBaseUrlFromToken t with
         | some u => if u = base then base else u
         | none => base), some t, r.refreshToken⟩) := by
    simp only [authenticate, hst, htok, if_pos rfl]
    cases hex : extractBaseUrlFromToken t <;> simp [hex]
  rw [ha]
  refine ⟨rfl, rfl, rfl, ?_⟩
  intro ep env
  exact cloudpbxGet_url _ ep env

open Rostelcom in
/-- C8 witness: a concrete token whose payload segment holds
`iss = https://p1.cloudpbx.rt.ru/webapi` switches the session away from the
p2 default. -/
theorem c8_endpoint_discovery_witness :
    (authenticate defaultBaseUrl (some ⟨200, some tokenWithP1Issuer, none⟩)).1 = true ∧
    (authenticate defaultBaseUrl (some ⟨200, some tokenWithP1Issuer, none⟩)).2.baseUrl
      = "https://p1.cloudpbx.rt.ru/webapi" := by
  have h := c8_endpoint_discovery defaultBaseUrl ⟨200, some tokenWithP1Issuer, none⟩
    tokenWithP1Issuer rfl rfl
  refine ⟨h.1, ?_⟩
  rw [h.2.2.1]
  decide

namespace Rostelcom

/-- A positive dedup lookup names a ledger row carrying that call id. -/
theorem exists_of_isRecordDownloaded {db : Ledger} {x : String}
    (h : isRecordDownloaded db (some x) = true) :
    ∃ e ∈ db, e.callId = some x := by
  simp only [isRecordDownloaded, List.any_eq_true, beq_iff_eq] at h
  exact h

/-- A ledger row carrying a call id makes the dedup lookup positive. -/
theorem isRecordDownloaded_of_mem {db : Ledger} {e : LedgerRow} {x : String}
    (he : e ∈ db) (hx : e.callId = some x) :
    isRecordDownloaded db (some x) = true := by
  simp only [isRecordDownloaded, List.any_eq_true, beq_iff_eq]
  exact ⟨e, he, hx⟩

/-- A commit keyed on a different id leaves an existing row in place. -/
theorem mem_markRecordDownloaded_of_ne {db : Ledger} {e : LedgerRow}
    (r : CallRecord) (p : String) (sz : Nat) (c d : Option String)
    (he : e ∈ db) (hne : e.id ≠ r.id) :
    e ∈ markRecordDownloaded db r p sz c d := by
  simp only [markRecordDownloaded, List.mem_cons]
  right
  rw [List.mem_filter]
  exact ⟨he, by simp [hne]⟩

/-- C1: in a poll cycle over a batch whose records are id-consistent with the
ledger and with each other, a stable id already present in the ledger is
never re-downloaded — no recording GET is issued for it — and every existing
ledger row carrying that id survives the cycle unchanged. -/
theorem c1_ledger_idempotency (env : DownloadEnv) (dir : String) (city dom : Option String)
    (rs : List CallRecord) (db : Ledger) (x : String)
    (hx : isRecordDownloaded db (some x) = true)
    (hdb : ∀ r ∈ rs, ∀ e ∈ db, r.id = e.id → r.recordCallId = e.callId)
    (hrs : ∀ r ∈ rs, ∀ r' ∈ rs, r.id = r'.id → r.recordCallId = r'.recordCallId) :
    x ∉ (processNewRecords env dir city dom db rs).downloadAttempts ∧
    ∀ e ∈ db, e.callId = some x → e ∈ (processNewRecords env dir city dom db rs).db := by
  induction rs generalizing db with
  | nil =>
    refine ⟨by simp [processNewRecords], ?_⟩
    intro e he _
    exact he
  | cons r rest ih =>
    have hdb_rest : ∀ r' ∈ rest, ∀ e ∈ db, r'.id = e.id → r'.recordCallId = e.callId :=
      fun r' hr' => hdb r' (List.mem_cons_of_mem _ hr')
    have hrs_rest : ∀ r' ∈ rest, ∀ r'' ∈ rest, r'.id = r''.id →
        r'.recordCallId = r''.recordCallId :=
      fun r' hr' r'' hr'' =>
        hrs r' (List.mem_cons_of_mem _ hr') r'' (List.mem_cons_of_mem _ hr'')
    by_cases hskip : isRecordDownloaded db r.recordCallId = true
    · simp only [processNewRecords, hskip, if_true]
      exact ih db hx hdb_rest hrs_rest
    · have hnotx : r.recordCallId ≠ some x := by
        intro hcontra
        rw [hcontra] at hskip
        exact hskip hx
      simp only [processNewRecords]
      rw [if_neg hskip]
      cases hrc : r.recordCallId with
      | none => exact ih db hx hdb_rest hrs_rest
      | some cid =>
        dsimp only
        have hcid_ne_x : cid ≠ x := fun hcx => hnotx (by rw [hrc, hcx])
        by_cases hempty : cid = ""
        · rw [if_pos hempty]
          exact ih db hx hdb_rest hrs_rest
        · rw [if_neg hempty]
          by_cases hok : env.downloadOk cid = true
          · rw [if_pos hok]
            have hsurv : ∀ e ∈ db, e.callId = some x →
                e ∈ markRecordDownloaded db r (dir ++ "/" ++ r.getReadableFilename)
                  (env.fileSize (dir ++ "/" ++ r.getReadableFilename)) city dom := by
              intro e he hex
              apply mem_markRecordDownloaded_of_ne _ _ _ _ _ he
              intro heid
              have hcc := hdb r (List.mem_cons_self _ _) e he heid.symm
              rw [hrc, hex] at hcc
              exact hcid_ne_x (Option.some.inj hcc)
            have hx' : isRecordDownloaded
                (markRecordDownloaded db r (dir ++ "/" ++ r.getReadableFilename)
                  (env.fileSize (dir ++ "/" ++ r.getReadableFilename)) city dom)
                (some x) = true := by
              obtain ⟨e, he, hex⟩ := exists_of_isRecordDownloaded hx
              exact isRecordDownloaded_of_mem (hsurv e he hex) hex
            have hdb' : ∀ r' ∈ rest,
                ∀ e ∈ markRecordDownloaded db r (dir ++ "/" ++ r.getReadableFilename)
                  (env.fileSize (dir ++ "/" ++ r.getReadableFilename)) city dom,
                r'.id = e.id → r'.recordCallId = e.callId := by
              intro r' hr' e he heid
              simp only [markRecordDownloaded, List.mem_cons] at he
              rcases he with he | he
              · subst he
                have := hrs r' (List.mem_cons_of_mem _ hr') r (List.mem_cons_self _ _) heid
                exact this
              · exact hdb_rest r' hr' e (List.mem_of_mem_filter he) heid
            have ihres := ih _ hx' hdb' hrs_rest
            constructor
            · intro hmem
              rcases List.mem_cons.mp hmem with hmem | hmem
              · exact hcid_ne_x hmem.symm
              · exact ihres.1 hmem
            · intro e he hex
              exact ihres.2 e (hsurv e he hex) hex
          · rw [if_neg hok]
            have ihres := ih db hx hdb_rest hrs_rest
            constructor
            · intro hmem
              rcases List.mem_cons.mp hmem with hmem | hmem
              · exact hcid_ne_x hmem.symm
              · exact ihres.1 hmem
            · exact ihres.2

end Rostelcom

open Rostelcom in
/-- C1 witness: a concrete one-record batch whose call id `X` is already in
the ledger is skipped and the ledger row survives. -/
theorem c1_ledger_idempotency_witness :
    "X" ∉ (processNewRecords ⟨fun _ => true, fun _ => 0⟩ "./downloads"
        (some "Perm") (some "d")
        [⟨"1", some "X", "79990000000", 200, "2025-01-15 14:30:45+05:00",
          "./downloads/a.mp3", 100, some "Perm", some "d"⟩]
        [⟨"1", "2025-01-15 14:30:45+05:00", "group", "79990000000", true,
          some "X", 200⟩]).downloadAttempts ∧
    ∀ e ∈ ([⟨"1", some "X", "79990000000", 200, "2025-01-15 14:30:45+05:00",
          "./downloads/a.mp3", 100, some "Perm", some "d"⟩] : Ledger),
      e.callId = some "X" →
        e ∈ (processNewRecords ⟨fun _ => true, fun _ => 0⟩ "./downloads"
          (some "Perm") (some "d")
          [⟨"1", some "X", "79990000000", 200, "2025-01-15 14:30:45+05:00",
            "./downloads/a.mp3", 100, some "Perm", some "d"⟩]
          [⟨"1", "2025-01-15 14:30:45+05:00", "group", "79990000000", true,
            some "X", 200⟩]).db :=
  c1_ledger_idempotency ⟨fun _ => true, fun _ => 0⟩ "./downloads"
    (some "Perm") (some "d")
    [⟨"1", "2025-01-15 14:30:45+05:00", "group", "79990000000", true,
      some "X", 200⟩]
    [⟨"1", some "X", "79990000000", 200, "2025-01-15 14:30:45+05:00",
      "./downloads/a.mp3", 100, some "Perm", some "d"⟩]
    "X" (by decide) (by decide) (by decide)

namespace Svyaztransit

/-- With the ceiling reached and less than an hour (in `.seconds`) since the
last restart, the restarter refuses and changes nothing. -/
theorem restartWatcher_suppressed {m t u c : Nat} (hcm : m ≤ c)
    (htd : tdSeconds t u < 3600) :
    restartWatcher m t ⟨c, some u⟩ = (false, ⟨c, some u⟩) := by
  simp [restartWatcher, shouldRestart, hcm, htd]

/-- With at least an hour (in `.seconds`) since the last restart, the counter
resets and the restart proceeds. -/
theorem restartWatcher_reset {m t u c : Nat} (htd : ¬ tdSeconds t u < 3600) :
    restartWatcher m t ⟨c, some u⟩ = (true, ⟨1, some t⟩) := by
  simp [restartWatcher, shouldRestart, htd, Nat.le_of_not_lt htd]

/-- Below the ceiling and within the hour, the restart proceeds and the
counter increments. -/
theorem restartWatcher_normal {m t u c : Nat} (hcm : ¬ m ≤ c)
    (htd : tdSeconds t u < 3600) :
    restartWatcher m t ⟨c, some u⟩ = (true, ⟨c + 1, some t⟩) := by
  simp [restartWatcher, shouldRestart, hcm, htd, Nat.not_le.mpr htd]

/-- The very first restart always proceeds. -/
theorem restartWatcher_first {m t c : Nat} :
    restartWatcher m t ⟨c, none⟩ = (true, ⟨c + 1, some t⟩) := by
  simp [restartWatcher, shouldRestart]

/-- Unfolding equation of the monitor loop when the restart proceeds. -/
theorem runRestarter_cons_true {m t : Nat} {s s' : RestarterState} {ts : List Nat}
    (h : restartWatcher m t s = (true, s')) :
    runRestarter m s (t :: ts) = t :: runRestarter m s' ts := by
  simp [runRestarter, h]

/-- Unfolding equation of the monitor loop when the restart is refused. -/
theorem runRestarter_cons_false {m t : Nat} {s s' : RestarterState} {ts : List Nat}
    (h : restartWatcher m t s = (false, s')) :
    runRestarter m s (t :: ts) = runRestarter m s' ts := by
  simp [runRestarter, h]

/-- A sorted-from-`t` list is sorted from any earlier `u`. -/
theorem chain_le_of_le {u t : Nat} {l : List Nat} (h : u ≤ t)
    (hc : List.Chain (· ≤ ·) t l) : List.Chain (· ≤ ·) u l := by
  cases l with
  | nil => exact List.Chain.nil
  | cons a l' =>
    cases hc with
    | cons hta hc' => exact List.Chain.cons (le_trans h hta) hc'

/-- Every restart happens at one of the observation times. -/
theorem runRestarter_subset (m : Nat) :
    ∀ (ts : List Nat) (s : RestarterState), ∀ x ∈ runRestarter m s ts, x ∈ ts := by
  intro ts
  induction ts with
  | nil => intro s x hx; simp [runRestarter] at hx
  | cons t ts' ih =>
    intro s x hx
    simp only [runRestarter] at hx
    by_cases hd : (restartWatcher m t s).1 = true
    · rw [if_pos hd] at hx
      rcases List.mem_cons.mp hx with h | h
      · exact h ▸ List.mem_cons_self _ _
      · exact List.mem_cons_of_mem _ (ih _ x h)
    · rw [if_neg hd] at hx
      exact List.mem_cons_of_mem _ (ih _ x hx)

/-- Filtering with a weaker predicate keeps at least as many elements. -/
theorem length_filter_le_of_imp (p q : Nat → Bool) (h : ∀ x, p x = true → q x = true)
    (l : List Nat) : (l.filter p).length ≤ (l.filter q).length := by
  induction l with
  | nil => simp
  | cons a l' ih =>
    cases hp : p a with
    | false =>
      cases hq : q a with
      | false => simpa [List.filter_cons, hp, hq] using ih
      | true => simp [List.filter_cons, hp, hq]; omega
    | true =>
      have hq := h a hp
      simp [List.filter_cons, hp, hq]; omega

/-- When the `.seconds` component reaches 3600, a full hour really elapsed. -/
theorem tdSeconds_ge_imp {t u : Nat} (hut : u ≤ t) (h : ¬ tdSeconds t u < 3600) :
    u + 3600 ≤ t := by
  unfold tdSeconds at h
  have hmle := Nat.mod_le (t - u) 86400
  omega

/-- Anchored window bound: starting from a state whose last restart was at
`u` with count `c`, at most `maxPerHour - c` further restarts happen before
`u + 3600`. -/
theorem restarter_anchored (m : Nat) :
    ∀ (ts : List Nat) (u c : Nat), List.Chain (· ≤ ·) u ts →
      ((runRestarter m ⟨c, some u⟩ ts).filter (fun x => decide (x < u + 3600))).length
        ≤ m - c := by
  intro ts
  induction ts with
  | nil => intro u c _; simp [runRestarter]
  | cons t ts' ih =>
    intro u c hch
    have hut : u ≤ t := (List.chain_cons.mp hch).1
    have hch' : List.Chain (· ≤ ·) t ts' := (List.chain_cons.mp hch).2
    by_cases htd : tdSeconds t u < 3600
    · by_cases hcm : m ≤ c
      · rw [runRestarter_cons_false (restartWatcher_suppressed hcm htd)]
        exact ih u c (chain_le_of_le hut hch')
      · rw [runRestarter_cons_true (restartWatcher_normal hcm htd)]
        rw [List.filter_cons]
        have hmono := length_filter_le_of_imp
          (fun x => decide (x < u + 3600)) (fun x => decide (x < t + 3600))
          (by intro x hx; simp at hx ⊢; omega)
          (runRestarter m ⟨c + 1, some t⟩ ts')
        have hanch := ih t (c + 1) hch'
        by_cases htw : t < u + 3600
        · rw [if_pos (by simpa using htw : decide (t < u + 3600) = true)]
          rw [List.length_cons]
          omega
        · rw [if_neg (by simpa using htw : ¬ decide (t < u + 3600) = true)]
          omega
    · rw [runRestarter_cons_true (restartWatcher_reset htd)]
      have htge : u + 3600 ≤ t := tdSeconds_ge_imp hut htd
      rw [List.filter_cons]
      have hnot : ¬ (decide (t < u + 3600) = true) := by simp; omega
      rw [if_neg hnot]
      have hzero :
          ((runRestarter m ⟨1, some t⟩ ts').filter (fun x => decide (x < u + 3600))).length = 0 := by
        rw [List.length_eq_zero, List.filter_eq_nil_iff]
        intro x hx
        have hxts : x ∈ ts' := runRestarter_subset m ts' ⟨1, some t⟩ x hx
        have htx : t ≤ x :=
          List.rel_of_pairwise_cons (List.chain_iff_pairwise.mp hch') hxts
        simp
        omega
      omega

end Svyaztransit

namespace Svyaztransit

/-- A restart inside the window plus the whole run after it stay within the
ceiling. -/
theorem window_in_bound (m : Nat) (hm : 1 ≤ m) (T t : Nat) (ts' : List Nat) (c' : Nat)
    (hc' : 1 ≤ c') (hch' : List.Chain (· ≤ ·) t ts') (hTt : T ≤ t) (htw : t < T + 3600) :
    countInWindow T (t :: runRestarter m ⟨c', some t⟩ ts') ≤ m := by
  unfold countInWindow
  rw [List.filter_cons,
    if_pos (by simp; exact ⟨hTt, htw⟩ : decide (T ≤ t ∧ t < T + 3600) = true),
    List.length_cons]
  have hmono := length_filter_le_of_imp
    (fun x => decide (T ≤ x ∧ x < T + 3600)) (fun x => decide (x < t + 3600))
    (by intro x hx; simp at hx ⊢; omega)
    (runRestarter m ⟨c', some t⟩ ts')
  have hanch := restarter_anchored m ts' t c' hch'
  omega

/-- From any post-restart state, any hour-long window sees at most
`maxPerHour` restarts. -/
theorem restarter_window_main (m : Nat) (hm : 1 ≤ m) (T : Nat) :
    ∀ (ts : List Nat) (u c : Nat), List.Chain (· ≤ ·) u ts →
      countInWindow T (runRestarter m ⟨c, some u⟩ ts) ≤ m := by
  intro ts
  induction ts with
  | nil => intro u c _; simp [runRestarter, countInWindow]
  | cons t ts' ih =>
    intro u c hch
    have hut : u ≤ t := (List.chain_cons.mp hch).1
    have hch' : List.Chain (· ≤ ·) t ts' := (List.chain_cons.mp hch).2
    by_cases htd : tdSeconds t u < 3600
    · by_cases hcm : m ≤ c
      · rw [runRestarter_cons_false (restartWatcher_suppressed hcm htd)]
        exact ih u c (chain_le_of_le hut hch')
      · rw [runRestarter_cons_true (restartWatcher_normal hcm htd)]
        by_cases htw : T ≤ t ∧ t < T + 3600
        · exact window_in_bound m hm T t ts' (c + 1) (by omega) hch' htw.1 htw.2
        · unfold countInWindow
          rw [List.filter_cons, if_neg (by simpa using htw)]
          exact ih t (c + 1) hch'
    · rw [runRestarter_cons_true (restartWatcher_reset htd)]
      by_cases htw : T ≤ t ∧ t < T + 3600
      · exact window_in_bound m hm T t ts' 1 (by omega) hch' htw.1 htw.2
      · unfold countInWindow
        rw [List.filter_cons, if_neg (by simpa using htw)]
        exact ih t 1 hch'

end Svyaztransit

/-- C9 (amended): the svyaztransit `WatcherRestarter` never performs more
than `max_restarts_per_hour` restarts inside any one-hour window, for any
nondecreasing sequence of down-observations; the rostelcom orchestrator (see
the counterexample) has no such ceiling. -/
theorem c9_restart_ceiling_amended (m : Nat) (hm : 1 ≤ m) (ts : List Nat)
    (hs : List.Chain' (· ≤ ·) ts) (T : Nat) :
    countInWindow T (Svyaztransit.runRestarter m ⟨0, none⟩ ts) ≤ m := by
  cases ts with
  | nil => simp [Svyaztransit.runRestarter, countInWindow]
  | cons t ts' =>
    have hch' : List.Chain (· ≤ ·) t ts' := hs
    rw [Svyaztransit.runRestarter_cons_true Svyaztransit.restartWatcher_first]
    by_cases htw : T ≤ t ∧ t < T + 3600
    · exact Svyaztransit.window_in_bound m hm T t ts' 1 (by omega) hch' htw.1 htw.2
    · unfold countInWindow
      rw [List.filter_cons, if_neg (by simpa using htw)]
      exact Svyaztransit.restarter_window_main m hm T ts' t 1 hch'

/-- C9 counterexample: the rostelcom orchestrator's monitor restarts a worker
that keeps crashing at every 300-second check — 11 restarts inside one hour,
exceeding the configured ceiling of 10 restarts per hour. -/
theorem c9_orchestrator_has_no_ceiling :
    countInWindow 0 (Rostelcom.monitorProcesses
      [(0, 1), (300, 1), (600, 1), (900, 1), (1200, 1), (1500, 1), (1800, 1),
       (2100, 1), (2400, 1), (2700, 1), (3000, 1)]) = 11 ∧ 10 < 11 :=
  ⟨by decide, by decide⟩

/-- C9 witness: 13 down-observations spaced 30 s apart yield at most 10
restarts in the first hour. -/
theorem c9_restart_ceiling_amended_witness :
    (1 : Nat) ≤ 10 ∧
    List.Chain' (· ≤ ·)
      [0, 30, 60, 90, 120, 150, 180, 210, 240, 270, 300, 330, 360] ∧
    countInWindow 0 (Svyaztransit.runRestarter 10 ⟨0, none⟩
      [0, 30, 60, 90, 120, 150, 180, 210, 240, 270, 300, 330, 360]) ≤ 10 :=
  ⟨by decide, by simp [List.chain'_cons],
    c9_restart_ceiling_amended 10 (by decide)
      [0, 30, 60, 90, 120, 150, 180, 210, 240, 270, 300, 330, 360]
      (by simp [List.chain'_cons]) 0⟩
